import Mathlib

/-!
Verification of the resumable Reddit batch-analysis pipeline
(`RedditDataProcessor.py`) against its natural-language specification.

Python strings are modelled as sequences of Unicode code points
(`Text := List Nat`, matching the `ord`-based character arithmetic of
`_normalize_text`).  Fallible model-gateway calls are modelled as
functions into `Except Unit`: `Except.error` stands for a raised
exception, `Except.ok` for a parsed JSON response.  JSON dictionaries
are modelled as structures of `Option`-typed fields; `dict.get(k, dflt)`
becomes `Option.getD`.  Floats are modelled as exact rationals; the only
numeric literals the code compares against (0.95, 0) are exactly
representable.
-/

/-- A Python string as its sequence of Unicode code points. -/
abbrev Text := List Nat

/-- Code points of a Lean string literal, used to embed the Python
string literals of the source. -/
def strCodes (s : String) : Text := s.data.map Char.toNat

/-- Rendering of a Python `Optional[str]` inside an f-string:
`None` prints as the four characters `None`. -/
def pyOptStr (o : Option Text) : Text :=
  match o with
  | none => strCodes "None"
  | some t => t

/-- Per-character mapping of `_normalize_text` (lines 151-160 of the
source): full-width punctuation `0xFF01..0xFF5E` shifts down by
`0xFEE0`, the full-width space `0x3000` becomes an ordinary space,
code points in `0x2E80..0x2FFF` are dropped, everything else passes
through. -/
def normCode (code : Nat) : Option Nat :=
  if 0xFF01 ≤ code ∧ code ≤ 0xFF5E then some (code - 0xFEE0)
  else if code = 0x3000 then some 0x20
  else if 0x2E80 ≤ code ∧ code ≤ 0x2FFF then none
  else some code

/-- Whitespace set of Python `str.strip()` (the code points for which
`str.isspace()` holds). -/
def pySpace (code : Nat) : Bool :=
  (0x09 ≤ code && code ≤ 0x0D) || code = 0x20 ||
  (0x1C ≤ code && code ≤ 0x1F) || code = 0x85 || code = 0xA0 ||
  code = 0x1680 || (0x2000 ≤ code && code ≤ 0x200A) ||
  code = 0x2028 || code = 0x2029 || code = 0x202F || code = 0x205F ||
  code = 0x3000

/-- Python `str.strip()`: drop leading and trailing whitespace. -/
def pyStrip (l : Text) : Text :=
  List.rdropWhile pySpace (l.dropWhile pySpace)

/-- Body of `_normalize_text` on a non-empty string: map/drop each
character, join, strip. -/
def normalizeCodes (l : Text) : Text :=
  pyStrip (l.filterMap normCode)

/-- Model of `_normalize_text` (lines 135-164): `None` and the empty string are
falsy and return `None`; any other string is character-normalized and
stripped. -/
def normalize_text (text : Option Text) : Option Text :=
  match text with
  | some s => if s = [] then none else some (normalizeCodes s)
  | none => none

section NormalizeLemmas

/-- Every output character of `normCode` is a fixed point of
`normCode`. -/
lemma normCode_fix (c c' : Nat) (h : normCode c = some c') :
    normCode c' = some c' := by
  unfold normCode at h ⊢
  by_cases h1 : 0xFF01 ≤ c ∧ c ≤ 0xFF5E
  · rw [if_pos h1, Option.some.injEq] at h
    subst h
    rw [if_neg (by omega), if_neg (by omega), if_neg (by omega)]
  · rw [if_neg h1] at h
    by_cases h2 : c = 0x3000
    · rw [if_pos h2, Option.some.injEq] at h
      subst h
      rw [if_neg (by omega), if_neg (by omega), if_neg (by omega)]
    · rw [if_neg h2] at h
      by_cases h3 : 0x2E80 ≤ c ∧ c ≤ 0x2FFF
      · rw [if_pos h3] at h
        exact absurd h (by simp)
      · rw [if_neg h3, Option.some.injEq] at h
        subst h
        rw [if_neg h1, if_neg h2, if_neg h3]

/-- Membership in a stripped string implies membership in the
original. -/
lemma mem_of_mem_pyStrip (l : Text) (a : Nat) (h : a ∈ pyStrip l) :
    a ∈ l := by
  unfold pyStrip at h
  exact (List.dropWhile_suffix pySpace).subset
    (( List.rdropWhile_prefix pySpace _).subset h)

lemma filterMap_fix {α : Type} (f : α → Option α) (l : List α)
    (h : ∀ a ∈ l, f a = some a) : l.filterMap f = l := by
  induction l with
  | nil => rfl
  | cons b t ih =>
    rw [List.filterMap_cons, h b (List.mem_cons_self b t),
      ih fun a ha => h a (List.mem_cons_of_mem b ha)]

lemma dropWhile_eq_self_of_prefix {α : Type} (p : α → Bool)
    (l l' : List α) (hfix : l.dropWhile p = l) (hpre : l' <+: l) :
    l'.dropWhile p = l' := by
  cases l' with
  | nil => rfl
  | cons a t =>
    obtain ⟨r, hr⟩ := hpre
    subst hr
    rw [List.cons_append, List.dropWhile_cons] at hfix
    rw [List.dropWhile_cons]
    cases hpa : p a
    · simp
    · rw [hpa] at hfix
      simp only [if_true] at hfix
      have hle : (List.dropWhile p (t ++ r)).length ≤ (t ++ r).length :=
        (List.dropWhile_suffix p).length_le
      have hlen := congrArg List.length hfix
      simp only [List.length_cons] at hlen
      omega

/-- Stripping is idempotent. -/
lemma pyStrip_idem (l : Text) : pyStrip (pyStrip l) = pyStrip l := by
  unfold pyStrip
  have hfix0 : (l.dropWhile pySpace).dropWhile pySpace
      = l.dropWhile pySpace := List.dropWhile_idempotent _ _
  have hfront : (List.rdropWhile pySpace (l.dropWhile pySpace)).dropWhile
      pySpace = List.rdropWhile pySpace (l.dropWhile pySpace) :=
    dropWhile_eq_self_of_prefix _ _ _ hfix0
      ( List.rdropWhile_prefix pySpace _)
  rw [hfront, List.rdropWhile_idempotent]

/-- Normalizing twice is the same as normalizing once (character map
then strip). -/
lemma normalizeCodes_idem (l : Text) :
    normalizeCodes (normalizeCodes l) = normalizeCodes l := by
  unfold normalizeCodes
  have hfixchars : (pyStrip (l.filterMap normCode)).filterMap normCode
      = pyStrip (l.filterMap normCode) := by
    apply filterMap_fix
    intro a ha
    have hmem := mem_of_mem_pyStrip _ _ ha
    obtain ⟨b, _, hb⟩ := List.mem_filterMap.mp hmem
    exact normCode_fix b a hb
  rw [hfixchars, pyStrip_idem]

end NormalizeLemmas

/-- Normalizing twice is the same as normalizing once, provided the
first pass did not collapse the string to empty. -/
lemma normalize_text_idem_of_ne_empty (s : Text) (hs : s ≠ [])
    (h : normalizeCodes s ≠ []) :
    normalize_text (normalize_text (some s)) = normalize_text (some s) := by
  have h1 : normalize_text (some s) = some (normalizeCodes s) := by
    unfold normalize_text
    simp [hs]
  rw [h1]
  unfold normalize_text
  simp [h, normalizeCodes_idem]

/-- Value possibly holding the numeric sentinel `-999` used for an
absent solution or recommendation (lines 295, 313, 316-321, 327). -/
inductive SField where
  | sentinel
  | value (t : Text)
deriving DecidableEq, Repr

/-- Value of the `user_complaint` and `diagnosis` keys of the
post-analysis JSON: either the numeric no-signal sentinel `-1000`
or a string. -/
inductive CField where
  | noSignal
  | text (t : Text)
deriving DecidableEq, Repr

/-- Parsed JSON response of the post-analysis prompt.  `none` fields
model keys missing from the dictionary (`dict.get` returning the
default). -/
structure PostJson where
  user_complaint : Option CField
  diagnosis : Option CField
  cybersecurity_relevance : Option Text
deriving DecidableEq, Repr

/-- Parsed JSON response of the answer-mining prompt (lines 306-309). -/
structure AnswerJson where
  Answer : Option Text
  Steps : Option Text
  Confidence : Option ℚ
  Is_Solution : Option Bool
deriving DecidableEq, Repr

/-- Inputs handed to the answer-mining gateway call (line 302). -/
structure AnswerInputs where
  user_complaint : CField
  diagnosis : CField
  comments : Text
deriving DecidableEq, Repr

/-- A row of the comments table: `Post ID` and `Comment Body`. -/
structure Comment where
  post_id : Nat
  body : Text
deriving DecidableEq, Repr

/-- A row of the posts table (the columns the pipeline reads). -/
structure PostRow where
  post_id : Nat
  title : Text
  self_text : Text
  created_time : Text
deriving DecidableEq, Repr

/-- The result record built at lines 204-214. -/
structure AnalysisResult where
  post_id : Nat
  created_time : Text
  user_complaint : CField
  diagnosis : CField
  cybersecurity_relevance : Text
  solution : SField
  recommendation : SField
  steps : Text
  confidence : ℚ
deriving DecidableEq, Repr

/-- Model of `find_answers` (lines 269-327).  The model gateway is a parameter
`call`; `Except.error` stands for a raised exception, caught by the
try/except of lines 301-327.  The comments of the post are selected by
`Post ID`, a call on an empty comment set short-circuits, the answer
JSON is read with the `dict.get` defaults of lines 306-309, and the
confidence-gated tuple assignments of lines 315-321 are reproduced
verbatim. -/
def find_answers (call : AnswerInputs → Except Unit AnswerJson)
    (comments_data : List Comment) (post_id : Nat)
    (user_complaint diagnosis : CField) :
    SField × SField × Text × ℚ :=
  let comments := comments_data.filter (fun c => c.post_id == post_id)
  if comments.isEmpty then
    (.sentinel, .sentinel, strCodes "No steps", 0)
  else
    let comments_text := List.intercalate (strCodes "\n")
      (comments.map Comment.body)
    match call ⟨user_complaint, diagnosis, comments_text⟩ with
    | .error _ => (.sentinel, .sentinel, strCodes "No steps", 0)
    | .ok j =>
      let answer := j.Answer.getD (strCodes "No relevant answer found")
      let steps := j.Steps.getD (strCodes "No steps")
      let confidence := j.Confidence.getD 0
      let is_solution := j.Is_Solution.getD false
      if answer = strCodes "No relevant answer found" then
        (.sentinel, .sentinel, strCodes "No steps", 0)
      else
        let sr : SField × SField :=
          if is_solution = true ∧ mkRat 95 100 ≤ confidence then
            (.value answer, .sentinel)
          else (.sentinel, .value answer)
        let rss : SField × SField × Text :=
          if confidence < mkRat 95 100 then
            (.value answer, .sentinel, strCodes "No steps")
          else (sr.2, sr.1, steps)
        (rss.2.1, rss.1, rss.2.2, confidence)

/-- Model of `_process_single_post` (lines 166-217).  The three model calls are
parameters: `analyzeCall` is `make_api_call` on the post-analysis
prompt, `genCall` is the `_generalize_complaint` string call, and
`answerCall` is the answer-mining gateway used by `find_answers`.  An
`Except.error` from `analyzeCall` is the exception caught at line 215,
yielding `None`. -/
def process_single_post (analyzeCall : Text → Except Unit PostJson)
    (genCall : Text → Text)
    (answerCall : AnswerInputs → Except Unit AnswerJson)
    (post : PostRow) (comments_data : List Comment) :
    Option AnalysisResult :=
  let title := normalize_text (some post.title)
  let self_text := normalize_text (some post.self_text)
  let combined := strCodes "Title: " ++ pyOptStr title ++
    strCodes "\n\nContent: " ++ pyOptStr self_text
  match analyzeCall combined with
  | .error _ => none
  | .ok j =>
    let cybersecurity_relevance :=
      j.cybersecurity_relevance.getD (strCodes "None")
    match j.user_complaint, j.diagnosis with
    | some (.text uc), some (.text d) =>
      let uc := if cybersecurity_relevance = strCodes "Low" ∨
          cybersecurity_relevance = strCodes "None" then genCall uc else uc
      let q := find_answers answerCall comments_data post.post_id
        (.text uc) (.text d)
      some { post_id := post.post_id,
             created_time := post.created_time,
             user_complaint := .text uc,
             diagnosis := .text d,
             cybersecurity_relevance := cybersecurity_relevance,
             solution := q.1,
             recommendation := q.2.1,
             steps := q.2.2.1,
             confidence := q.2.2.2 }
    | _, _ => none

/-- The inner loop body of `process_posts` (lines 104-131) together
with the checkpoint gate of `_save_checkpoint` (line 449), abstracted
over a per-post outcome function (`none` means the post yielded no
result or exhausted its retries; `some r` means a result was appended).
The first component is the accumulated `results` list, the second the
chronological sequence of checkpoint snapshots written: a snapshot of
the current results is written exactly when a result is appended for
the post at 0-based index `i` and `(i + 1) % 50 == 0` (line 116 calls
`_save_checkpoint` with `current_post = i + 1` only inside
`if result:`).  Chunk boundaries do not affect the iteration order or
the checkpoints, and the final CSV write is a full overwrite, so the
output table equals the final results list. -/
def processFrom {R : Type} (outcome : Nat → Option R) :
    List Nat → List R → List R × List (List R)
  | [], results => (results, [])
  | i :: rest, results =>
    match outcome i with
    | none => processFrom outcome rest results
    | some r =>
      let results' := results ++ [r]
      let step := processFrom outcome rest results'
      (step.1, (if (i + 1) % 50 = 0 then [results'] else []) ++ step.2)

/-- An uninterrupted `process_posts` run over `total` posts starting
with no checkpoint. -/
def process_posts_run {R : Type} (outcome : Nat → Option R)
    (total : Nat) : List R × List (List R) :=
  processFrom outcome (List.range total) []

/-- The checkpoint file content after a run interrupted once the first
`K` posts were processed: the last snapshot written, or the empty list
when no checkpoint was ever written (`_load_checkpoint` returns `[]`
when the file is missing). -/
def checkpoint_after {R : Type} (outcome : Nat → Option R) (K : Nat) :
    List R :=
  ((processFrom outcome (List.range K) []).2).getLast?.getD []

/-- Output of the re-run after the interruption: `_load_checkpoint`
gives the snapshot, `processed_posts = len(results)` (line 100), and
the loop restarts at that index (line 104). -/
def resumed_output {R : Type} (outcome : Nat → Option R)
    (total K : Nat) : List R :=
  let loaded := checkpoint_after outcome K
  (processFrom outcome (List.range' loaded.length (total - loaded.length))
    loaded).1

/-- The per-post retry loop of lines 110-125, with the attempt bodies
abstracted as `attempt retry_count` (an `Except.error` is a raised
exception).  The recursion parameter is `max_retries - retry_count`.
Returns the result of the first successful attempt (or `none` after
exhaustion), the number of attempts made, and the list of backoff
sleeps `2 ^ retry_count` performed (line 125; no sleep after the last
failed attempt). -/
def retryLoopGo {R : Type} (attempt : Nat → Except Unit (Option R))
    (max_retries : Nat) : Nat → Option R × Nat × List Nat
  | 0 => (none, 0, [])
  | remaining + 1 =>
    let retry_count := max_retries - (remaining + 1)
    match attempt retry_count with
    | .ok r => (r, 1, [])
    | .error _ =>
      let rc' := retry_count + 1
      if rc' = max_retries then (none, 1, [])
      else
        let step := retryLoopGo attempt max_retries remaining
        (step.1, step.2.1 + 1, 2 ^ rc' :: step.2.2)

/-- The retry loop entered with `retry_count = 0`. -/
def retryLoop {R : Type} (attempt : Nat → Except Unit (Option R))
    (max_retries : Nat) : Option R × Nat × List Nat :=
  retryLoopGo attempt max_retries max_retries

section BatchLemmas

/-- The results accumulated by the loop are the accumulator followed by
the defined outcomes of the processed indices, in order. -/
lemma processFrom_fst {R : Type} (outcome : Nat → Option R) :
    ∀ (idx : List Nat) (res : List R),
      (processFrom outcome idx res).1 = res ++ idx.filterMap outcome := by
  intro idx
  induction idx with
  | nil => intro res; simp [processFrom]
  | cons i rest ih =>
    intro res
    cases ho : outcome i with
    | none => simp [processFrom, ho, ih]
    | some r => simp [processFrom, ho, ih]

/-- Characterization of the checkpoint snapshots: one snapshot per
index `i` of the processed range with `(i + 1) % 50 = 0` and a defined
outcome, holding the results accumulated through index `i`. -/
lemma processFrom_snd {R : Type} (outcome : Nat → Option R) :
    ∀ (n s : Nat) (res : List R),
      (processFrom outcome (List.range' s n) res).2
        = ((List.range' s n).filter
            (fun i => decide ((i + 1) % 50 = 0) && (outcome i).isSome)).map
            (fun i => res ++ (List.range' s (i + 1 - s)).filterMap outcome) := by
  intro n
  induction n with
  | zero => intro s res; simp [processFrom]
  | succ n ih =>
    intro s res
    have hr : List.range' s (n + 1) = s :: List.range' (s + 1) n := rfl
    rw [hr]
    cases ho : outcome s with
    | none =>
      have hmap : ∀ i ∈ (List.range' (s + 1) n).filter
          (fun i => decide ((i + 1) % 50 = 0) && (outcome i).isSome),
          res ++ (List.range' (s + 1) (i + 1 - (s + 1))).filterMap outcome
            = res ++ (List.range' s (i + 1 - s)).filterMap outcome := by
        intro i hi
        have hmem := List.mem_range'_1.mp (List.mem_of_mem_filter hi)
        have hsucc : i + 1 - s = (i + 1 - (s + 1)) + 1 := by omega
        have hcons : List.range' s (i + 1 - s)
            = s :: List.range' (s + 1) (i + 1 - (s + 1)) := by
          rw [hsucc]; rfl
        rw [hcons, List.filterMap_cons, ho]
      have h2 : (processFrom outcome (s :: List.range' (s + 1) n) res).2
          = (processFrom outcome (List.range' (s + 1) n) res).2 := by
        simp [processFrom, ho]
      have hfilt : (s :: List.range' (s + 1) n).filter
          (fun i => decide ((i + 1) % 50 = 0) && (outcome i).isSome)
          = (List.range' (s + 1) n).filter
            (fun i => decide ((i + 1) % 50 = 0) && (outcome i).isSome) := by
        simp [List.filter_cons, ho]
      rw [h2, ih, hfilt]
      exact List.map_congr_left hmap
    | some r =>
      have hmap : ∀ i ∈ (List.range' (s + 1) n).filter
          (fun i => decide ((i + 1) % 50 = 0) && (outcome i).isSome),
          (res ++ [r]) ++ (List.range' (s + 1) (i + 1 - (s + 1))).filterMap
              outcome
            = res ++ (List.range' s (i + 1 - s)).filterMap outcome := by
        intro i hi
        have hmem := List.mem_range'_1.mp (List.mem_of_mem_filter hi)
        have hsucc : i + 1 - s = (i + 1 - (s + 1)) + 1 := by omega
        have hcons : List.range' s (i + 1 - s)
            = s :: List.range' (s + 1) (i + 1 - (s + 1)) := by
          rw [hsucc]; rfl
        rw [hcons]
        simp [List.filterMap_cons, ho, List.append_assoc]
      have hhead : res ++ (List.range' s (s + 1 - s)).filterMap outcome
          = res ++ [r] := by
        have h1 : s + 1 - s = 1 := by omega
        rw [h1]
        simp [List.range'_one, List.filterMap_cons, ho]
      have h2 : (processFrom outcome (s :: List.range' (s + 1) n) res).2
          = (if (s + 1) % 50 = 0 then [res ++ [r]] else []) ++
            (processFrom outcome (List.range' (s + 1) n) (res ++ [r])).2 := by
        simp [processFrom, ho]
      rw [h2, ih]
      by_cases h50 : (s + 1) % 50 = 0
      · have hfilt : (s :: List.range' (s + 1) n).filter
            (fun i => decide ((i + 1) % 50 = 0) && (outcome i).isSome)
            = s :: (List.range' (s + 1) n).filter
              (fun i => decide ((i + 1) % 50 = 0) && (outcome i).isSome) := by
          simp [List.filter_cons, ho, h50]
        rw [hfilt, if_pos h50, List.map_cons, List.singleton_append]
        exact List.cons_eq_cons.mpr ⟨hhead.symm, List.map_congr_left hmap⟩
      · have hfilt : (s :: List.range' (s + 1) n).filter
            (fun i => decide ((i + 1) % 50 = 0) && (outcome i).isSome)
            = (List.range' (s + 1) n).filter
              (fun i => decide ((i + 1) % 50 = 0) && (outcome i).isSome) := by
          simp [List.filter_cons, ho, h50]
        rw [hfilt, if_neg h50, List.nil_append]
        exact List.map_congr_left hmap

/-- A `none` outcome contributes nothing: the batch output equals the
output over the remaining indices. -/
lemma filterMap_filter_ne {R : Type} (outcome : Nat → Option R)
    (j : Nat) (hj : outcome j = none) :
    ∀ l : List Nat,
      l.filterMap outcome = (l.filter (fun i => i != j)).filterMap outcome := by
  intro l
  induction l with
  | nil => rfl
  | cons a t ih =>
    by_cases ha : a = j
    · subst ha
      simp [List.filterMap_cons, hj, ih]
    · simp [List.filterMap_cons, List.filter_cons, ha, ih]

lemma length_filterMap_of_isSome {R : Type} (outcome : Nat → Option R)
    (l : List Nat) (h : ∀ i ∈ l, (outcome i).isSome) :
    (l.filterMap outcome).length = l.length := by
  induction l with
  | nil => rfl
  | cons a t ih =>
    obtain ⟨r, hr⟩ := Option.isSome_iff_exists.mp
      (h a (List.mem_cons_self a t))
    rw [List.filterMap_cons, hr, List.length_cons,
      ih fun i hi => h i (List.mem_cons_of_mem a hi), List.length_cons]

end BatchLemmas

section RetryLemmas

/-- Closed form of the retry loop when every attempt raises:
`remaining` further attempts are made and a backoff sleep follows each
failed attempt except the last. -/
lemma retryLoopGo_error {R : Type} (attempt : Nat → Except Unit (Option R))
    (max_retries : Nat) (h : ∀ n, attempt n = .error ()) :
    ∀ remaining, 1 ≤ remaining → remaining ≤ max_retries →
      retryLoopGo attempt max_retries remaining
        = (none, remaining,
           (List.range' (max_retries - remaining + 1) (remaining - 1)).map
             (fun k => 2 ^ k)) := by
  intro remaining
  induction remaining with
  | zero => intro h1 _; omega
  | succ rem ih =>
    intro _ hle
    cases rem with
    | zero =>
      simp only [retryLoopGo, h]
      rw [if_pos (by omega)]
      simp
    | succ m =>
      have hne : max_retries - (m + 1 + 1) + 1 ≠ max_retries := by omega
      have hstep := ih (by omega) (by omega)
      simp only [retryLoopGo, h] at hstep ⊢
      rw [if_neg hne, hstep]
      have harith : max_retries - (m + 1 + 1) + 1 + 1
          = max_retries - (m + 1) + 1 := by omega
      have hcons : List.range' (max_retries - (m + 1 + 1) + 1) (m + 1)
          = (max_retries - (m + 1 + 1) + 1) ::
            List.range' (max_retries - (m + 1) + 1) m := by
        rw [← harith]
        rfl
      simp [hcons]

end RetryLemmas

/-- In every tuple returned by `find_answers`, at least one of the
solution and recommendation slots holds the sentinel. -/
lemma find_answers_sentinel (call : AnswerInputs → Except Unit AnswerJson)
    (cd : List Comment) (pid : Nat) (uc d : CField) :
    (find_answers call cd pid uc d).1 = SField.sentinel ∨
    (find_answers call cd pid uc d).2.1 = SField.sentinel := by
  simp only [find_answers]
  split
  · left; rfl
  · split
    · left; rfl
    · split
      · left; rfl
      · split
        · left; rfl
        · split
          · right; rfl
          · left; rfl

/-- Full characterization of `find_answers` on a successful mining call
returning a real (non-sentinel) answer: the solution is populated
exactly under `Is_Solution ∧ Confidence ≥ 0.95`, the recommendation is
populated otherwise, and the steps are discarded exactly when
`Confidence < 0.95`. -/
lemma find_answers_real (cd : List Comment) (pid : Nat) (uc d : CField)
    (j : AnswerJson)
    (hne : (cd.filter (fun c => c.post_id == pid)).isEmpty = false)
    (hreal : j.Answer.getD (strCodes "No relevant answer found")
      ≠ strCodes "No relevant answer found") :
    find_answers (fun _ => Except.ok j) cd pid uc d
      = ((if j.Is_Solution.getD false = true ∧ mkRat 95 100 ≤ j.Confidence.getD 0
            then SField.value (j.Answer.getD (strCodes "No relevant answer found"))
            else SField.sentinel),
         (if j.Is_Solution.getD false = true ∧ mkRat 95 100 ≤ j.Confidence.getD 0
            then SField.sentinel
            else SField.value (j.Answer.getD (strCodes "No relevant answer found"))),
         (if j.Confidence.getD 0 < mkRat 95 100
            then strCodes "No steps" else j.Steps.getD (strCodes "No steps")),
         j.Confidence.getD 0) := by
  simp only [find_answers, hne, Bool.false_eq_true, if_false, if_neg hreal]
  by_cases hcond : j.Is_Solution.getD false = true ∧ mkRat 95 100 ≤ j.Confidence.getD 0
  · have hnl : ¬ j.Confidence.getD 0 < mkRat 95 100 := not_lt.mpr hcond.2
    simp only [if_pos hcond, if_neg hnl]
  · by_cases hlt : j.Confidence.getD 0 < mkRat 95 100
    · simp only [if_neg hcond, if_pos hlt]
    · simp only [if_neg hcond, if_neg hlt]

/-- Claim C2, counterexample: a real answer with `Is_Solution = false`
and `Confidence = 0.97 ≥ 0.95` yields a recommendation whose steps are
kept, not replaced by the no-steps sentinel as the claim requires for
every non-solution combination. -/
theorem decision_rule_counterexample :
    (find_answers
        (fun _ => Except.ok ⟨some (strCodes "Reset your router"),
          some (strCodes "Step 1"), some (mkRat 97 100), some false⟩)
        [⟨1, strCodes "c"⟩] 1 (CField.text (strCodes "u"))
        (CField.text (strCodes "d")))
      = (SField.sentinel, SField.value (strCodes "Reset your router"),
         strCodes "Step 1", mkRat 97 100) ∧
    strCodes "Step 1" ≠ strCodes "No steps" := by
  constructor
  · rfl
  · decide

/-- Claim C2, amended: on a real answer, `Is_Solution ∧ Confidence ≥
0.95` gives solution = Answer, recommendation absent, steps kept; every
other combination gives recommendation = Answer and solution absent,
with steps replaced by the no-steps sentinel exactly when Confidence <
0.95 (for Confidence ≥ 0.95 with Is_Solution false the steps are
kept). -/
theorem decision_rule_amended (cd : List Comment) (pid : Nat)
    (uc d : CField) (j : AnswerJson)
    (hne : (cd.filter (fun c => c.post_id == pid)).isEmpty = false)
    (hreal : j.Answer.getD (strCodes "No relevant answer found")
      ≠ strCodes "No relevant answer found") :
    (j.Is_Solution.getD false = true ∧ mkRat 95 100 ≤ j.Confidence.getD 0 →
      find_answers (fun _ => Except.ok j) cd pid uc d
        = (SField.value (j.Answer.getD (strCodes "No relevant answer found")),
           SField.sentinel, j.Steps.getD (strCodes "No steps"),
           j.Confidence.getD 0)) ∧
    (¬(j.Is_Solution.getD false = true ∧ mkRat 95 100 ≤ j.Confidence.getD 0) →
      find_answers (fun _ => Except.ok j) cd pid uc d
        = (SField.sentinel,
           SField.value (j.Answer.getD (strCodes "No relevant answer found")),
           (if j.Confidence.getD 0 < mkRat 95 100
             then strCodes "No steps" else j.Steps.getD (strCodes "No steps")),
           j.Confidence.getD 0)) := by
  constructor
  · intro hcond
    rw [find_answers_real cd pid uc d j hne hreal, if_pos hcond, if_pos hcond,
      if_neg (not_lt.mpr hcond.2)]
  · intro hcond
    rw [find_answers_real cd pid uc d j hne hreal, if_neg hcond, if_neg hcond]

/-- Claim C2 witness: the amended rule evaluated on a concrete solution
case. -/
theorem decision_rule_amended_witness :
    find_answers
        (fun _ => Except.ok ⟨some (strCodes "A"), some (strCodes "S"),
          some (mkRat 97 100), some true⟩)
        [⟨1, strCodes "c"⟩] 1 (CField.text []) (CField.text [])
      = (SField.value (strCodes "A"), SField.sentinel, strCodes "S", mkRat 97 100) := by
  have h := (decision_rule_amended [⟨1, strCodes "c"⟩] 1 (CField.text [])
    (CField.text [])
    ⟨some (strCodes "A"), some (strCodes "S"), some (mkRat 97 100), some true⟩
    (by decide) (by decide)).1 (by constructor <;> decide)
  simpa using h

/-- Claim C3, counterexample: with `Is_Solution = true` and `Confidence
= 0.97` strictly above 0.95, `find_answers` still returns a populated
solution, contradicting the claim that only Confidence exactly 0.95 can
do so. -/
theorem narrow_threshold_counterexample :
    (find_answers
        (fun _ => Except.ok ⟨some (strCodes "Reset your router"),
          some (strCodes "Step 1"), some (mkRat 97 100), some true⟩)
        [⟨1, strCodes "c"⟩] 1 (CField.text (strCodes "u"))
        (CField.text (strCodes "d"))).1
      = SField.value (strCodes "Reset your router") ∧ mkRat 95 100 < mkRat 97 100 := by
  constructor
  · rfl
  · decide

/-- Claim C3, amended: on a real answer the solution slot is populated
exactly when `Is_Solution` holds and `Confidence ≥ 0.95`; the `< 0.95`
override never strips a solution because it fires only when the
solution branch was not taken. -/
theorem solution_iff_threshold (cd : List Comment) (pid : Nat)
    (uc d : CField) (j : AnswerJson)
    (hne : (cd.filter (fun c => c.post_id == pid)).isEmpty = false)
    (hreal : j.Answer.getD (strCodes "No relevant answer found")
      ≠ strCodes "No relevant answer found") :
    (find_answers (fun _ => Except.ok j) cd pid uc d).1 ≠ SField.sentinel
      ↔ j.Is_Solution.getD false = true ∧ mkRat 95 100 ≤ j.Confidence.getD 0 := by
  rw [find_answers_real cd pid uc d j hne hreal]
  by_cases hcond : j.Is_Solution.getD false = true ∧
      mkRat 95 100 ≤ j.Confidence.getD 0
  · simp [hcond]
  · simp [hcond]

/-- Claim C3 witness: the amended characterization evaluated at a
concrete input with confidence 0.99. -/
theorem solution_iff_threshold_witness :
    (find_answers
        (fun _ => Except.ok ⟨some (strCodes "A"), some (strCodes "S"),
          some (mkRat 99 100), some true⟩)
        [⟨1, strCodes "c"⟩] 1 (CField.text []) (CField.text [])).1
      ≠ SField.sentinel := by
  exact (solution_iff_threshold [⟨1, strCodes "c"⟩] 1 (CField.text [])
    (CField.text [])
    ⟨some (strCodes "A"), some (strCodes "S"), some (mkRat 99 100), some true⟩
    (by decide) (by decide)).mpr (by constructor <;> decide)

/-- Claim C8 (confirmed): a mining call on a post with zero associated
comments returns exactly the empty-evidence quadruple, for every
gateway function (so the gateway is never consulted) and without
raising. -/
theorem empty_comments_result
    (call : AnswerInputs → Except Unit AnswerJson) (cd : List Comment)
    (pid : Nat) (uc d : CField)
    (h : cd.filter (fun c => c.post_id == pid) = []) :
    find_answers call cd pid uc d
      = (SField.sentinel, SField.sentinel, strCodes "No steps", 0) := by
  simp only [find_answers, h, List.isEmpty_nil, if_true]

/-- Claim C8 witness: evaluated on an empty comments table. -/
theorem empty_comments_result_witness :
    find_answers (fun _ => Except.error ()) [] 0 CField.noSignal
        CField.noSignal
      = (SField.sentinel, SField.sentinel, strCodes "No steps", 0) :=
  empty_comments_result (fun _ => Except.error ()) [] 0 CField.noSignal
    CField.noSignal rfl

/-- Claim C6, counterexample: a post with a valid complaint and
diagnosis but zero associated comments produces a result record in
which both `solution` and `recommendation` hold the absent sentinel,
contradicting the exactly-one invariant. -/
theorem both_sentinels_counterexample :
    process_single_post
        (fun _ => Except.ok ⟨some (CField.text (strCodes "u")),
          some (CField.text (strCodes "d")), some (strCodes "High")⟩)
        (fun t => t) (fun _ => Except.ok ⟨none, none, none, none⟩)
        ⟨1, strCodes "T", strCodes "S", strCodes "t0"⟩ []
      = some { post_id := 1, created_time := strCodes "t0",
               user_complaint := CField.text (strCodes "u"),
               diagnosis := CField.text (strCodes "d"),
               cybersecurity_relevance := strCodes "High",
               solution := SField.sentinel,
               recommendation := SField.sentinel,
               steps := strCodes "No steps", confidence := 0 } := by
  rfl

/-- Claim C6, amended: in every result record the pipeline produces, at
most one of `solution` and `recommendation` is populated — at least one
of the two always holds the absent sentinel (both hold it when the
mining call found no usable answer). -/
theorem at_most_one_populated (analyzeCall : Text → Except Unit PostJson)
    (genCall : Text → Text)
    (answerCall : AnswerInputs → Except Unit AnswerJson)
    (post : PostRow) (cd : List Comment) (r : AnalysisResult)
    (h : process_single_post analyzeCall genCall answerCall post cd
      = some r) :
    r.solution = SField.sentinel ∨ r.recommendation = SField.sentinel := by
  simp only [process_single_post] at h
  split at h
  · exact absurd h (by simp)
  · split at h
    · rw [Option.some.injEq] at h
      subst h
      exact find_answers_sentinel answerCall cd post.post_id _ _
    · exact absurd h (by simp)

/-- Claim C6 witness: the amended invariant on a concrete record. -/
theorem at_most_one_populated_witness :
    ({ post_id := 1, created_time := strCodes "t0",
       user_complaint := CField.text (strCodes "u"),
       diagnosis := CField.text (strCodes "d"),
       cybersecurity_relevance := strCodes "High",
       solution := SField.sentinel,
       recommendation := SField.sentinel,
       steps := strCodes "No steps", confidence := 0 }
         : AnalysisResult).solution = SField.sentinel ∨
    ({ post_id := 1, created_time := strCodes "t0",
       user_complaint := CField.text (strCodes "u"),
       diagnosis := CField.text (strCodes "d"),
       cybersecurity_relevance := strCodes "High",
       solution := SField.sentinel,
       recommendation := SField.sentinel,
       steps := strCodes "No steps", confidence := 0 }
         : AnalysisResult).recommendation = SField.sentinel :=
  at_most_one_populated
    (fun _ => Except.ok ⟨some (CField.text (strCodes "u")),
      some (CField.text (strCodes "d")), some (strCodes "High")⟩)
    (fun t => t) (fun _ => Except.ok ⟨none, none, none, none⟩)
    ⟨1, strCodes "T", strCodes "S", strCodes "t0"⟩ [] _ rfl

/-- Claim C7 (confirmed): when the post-analysis response carries the
no-signal sentinel (or a missing key) in `user_complaint` or
`diagnosis`, the pipeline yields no result for the post, and a post
with no result contributes no row to the output table. -/
theorem no_signal_no_result (analyzeCall : Text → Except Unit PostJson)
    (genCall : Text → Text)
    (answerCall : AnswerInputs → Except Unit AnswerJson)
    (post : PostRow) (cd : List Comment) (j : PostJson)
    (hj : analyzeCall (strCodes "Title: " ++
      pyOptStr (normalize_text (some post.title)) ++
      strCodes "\n\nContent: " ++
      pyOptStr (normalize_text (some post.self_text))) = Except.ok j)
    (hs : j.user_complaint = some CField.noSignal ∨
      j.diagnosis = some CField.noSignal ∨
      j.user_complaint = none ∨ j.diagnosis = none) :
    process_single_post analyzeCall genCall answerCall post cd = none ∧
    ∀ (outcome : Nat → Option AnalysisResult) (total jdx : Nat),
      outcome jdx = none →
      (process_posts_run outcome total).1
        = ((List.range total).filter (fun i => i != jdx)).filterMap outcome := by
  constructor
  · obtain ⟨ucf, df, rf⟩ := j
    simp only at hs
    simp only [process_single_post, hj]
    rcases ucf with _ | ucf
    · rfl
    · rcases df with _ | df
      · rcases ucf with _ | t
        · rfl
        · rfl
      · rcases ucf with _ | t
        · rfl
        · rcases df with _ | t2
          · rfl
          · simp at hs
  · intro outcome total jdx hnone
    rw [process_posts_run, processFrom_fst, List.nil_append]
    exact filterMap_filter_ne outcome jdx hnone _

/-- Claim C7 witness: a concrete sentinel-valued analysis response
yields no result. -/
theorem no_signal_no_result_witness :
    process_single_post
        (fun _ => Except.ok ⟨some CField.noSignal, some CField.noSignal,
          none⟩)
        (fun t => t) (fun _ => Except.error ()) ⟨0, [], [], []⟩ []
      = none :=
  (no_signal_no_result _ _ _ _ _ _ rfl (Or.inl rfl)).1

/-- Claim C10 (confirmed): when every answer-mining gateway call
raises, the exception is caught inside `find_answers`, which returns
the sentinel quadruple, and a post with a valid complaint still yields
a result record whose answer slots hold the sentinel with confidence 0
— it is not retried or skipped. -/
theorem mining_failure_yields_row
    (analyzeCall : Text → Except Unit PostJson) (genCall : Text → Text)
    (answerCall : AnswerInputs → Except Unit AnswerJson)
    (post : PostRow) (cd : List Comment) (j : PostJson) (uc d : Text)
    (hj : analyzeCall (strCodes "Title: " ++
      pyOptStr (normalize_text (some post.title)) ++
      strCodes "\n\nContent: " ++
      pyOptStr (normalize_text (some post.self_text))) = Except.ok j)
    (huc : j.user_complaint = some (CField.text uc))
    (hd : j.diagnosis = some (CField.text d))
    (hfail : ∀ inp, answerCall inp = Except.error ()) :
    (∀ (cd' : List Comment) (pid : Nat) (uc' d' : CField),
      find_answers answerCall cd' pid uc' d'
        = (SField.sentinel, SField.sentinel, strCodes "No steps", 0)) ∧
    ∃ r, process_single_post analyzeCall genCall answerCall post cd
        = some r ∧
      r.solution = SField.sentinel ∧ r.recommendation = SField.sentinel ∧
      r.steps = strCodes "No steps" ∧ r.confidence = 0 := by
  have hfa : ∀ (cd' : List Comment) (pid : Nat) (uc' d' : CField),
      find_answers answerCall cd' pid uc' d'
        = (SField.sentinel, SField.sentinel, strCodes "No steps", 0) := by
    intro cd' pid uc' d'
    simp only [find_answers]
    split
    · rfl
    · rw [hfail]
  refine ⟨hfa, ?_⟩
  simp only [process_single_post, hj, huc, hd]
  refine ⟨_, rfl, ?_, ?_, ?_, ?_⟩ <;> simp [hfa]

/-- Claim C10 witness: a concrete failing gateway still yields a
sentinel-only quadruple. -/
theorem mining_failure_yields_row_witness :
    find_answers (fun _ => Except.error ()) [⟨1, strCodes "c"⟩] 1
        (CField.text (strCodes "u")) (CField.text (strCodes "d"))
      = (SField.sentinel, SField.sentinel, strCodes "No steps", 0) :=
  (mining_failure_yields_row
      (fun _ => Except.ok ⟨some (CField.text (strCodes "u")),
        some (CField.text (strCodes "d")), some (strCodes "High")⟩)
      (fun t => t) (fun _ => Except.error ())
      ⟨1, strCodes "T", strCodes "S", strCodes "t0"⟩ [⟨1, strCodes "c"⟩]
      _ (strCodes "u") (strCodes "d") rfl rfl rfl
      (fun _ => rfl)).1 [⟨1, strCodes "c"⟩] 1
    (CField.text (strCodes "u")) (CField.text (strCodes "d"))

/-- Claim C4 (confirmed): a post whose per-post pipeline raises on
every attempt is attempted exactly `max_retries` times with backoff
sleeps `2^1, ..., 2^(max_retries-1)` between consecutive attempts,
yields no result, and contributes no row to the batch output, which
continues over the remaining posts. -/
theorem retry_bound_spec {R : Type}
    (attemptOf : Nat → Nat → Except Unit (Option R))
    (max_retries total j : Nat)
    (hj : ∀ n, attemptOf j n = Except.error ()) :
    (retryLoop (attemptOf j) max_retries).1 = none ∧
    (retryLoop (attemptOf j) max_retries).2.1 = max_retries ∧
    (retryLoop (attemptOf j) max_retries).2.2
      = (List.range' 1 (max_retries - 1)).map (fun k => 2 ^ k) ∧
    (process_posts_run (fun i => (retryLoop (attemptOf i) max_retries).1)
        total).1
      = ((List.range total).filter (fun i => i != j)).filterMap
          (fun i => (retryLoop (attemptOf i) max_retries).1) := by
  have hmain : retryLoop (attemptOf j) max_retries
      = (none, max_retries,
         (List.range' 1 (max_retries - 1)).map (fun k => 2 ^ k)) := by
    cases hm : max_retries with
    | zero => simp [retryLoop, retryLoopGo]
    | succ m =>
      have h1 := retryLoopGo_error (attemptOf j) (m + 1) hj (m + 1)
        (by omega) le_rfl
      rw [retryLoop, h1]
      have h2 : m + 1 - (m + 1) + 1 = 1 := by omega
      rw [h2]
  refine ⟨by rw [hmain], by rw [hmain], by rw [hmain], ?_⟩
  rw [process_posts_run, processFrom_fst, List.nil_append]
  exact filterMap_filter_ne _ j (by rw [hmain]) _

/-- Claim C4 witness: three attempts and sleeps 2, 4 for a concrete
always-failing post. -/
theorem retry_bound_spec_witness :
    (retryLoop ((fun _ _ => (Except.error () : Except Unit (Option Nat)))
        0) 3).2.1 = 3 ∧
    (retryLoop ((fun _ _ => (Except.error () : Except Unit (Option Nat)))
        0) 3).2.2 = (List.range' 1 2).map (fun k => 2 ^ k) :=
  ⟨(retry_bound_spec (fun _ _ => Except.error ()) 3 2 0
      (fun _ => rfl)).2.1,
   (retry_bound_spec (fun _ _ => Except.error ()) 3 2 0
      (fun _ => rfl)).2.2.1⟩

/-- Claim C9, counterexample: a string consisting of one full-width
space (code point 0x3000) normalizes to the empty string — a populated
result — while normalizing that empty string yields the absent result,
so `normalize(normalize(x)) ≠ normalize(x)`. -/
theorem normalize_idem_counterexample :
    normalize_text (some [0x3000]) = some [] ∧
    normalize_text (normalize_text (some [0x3000])) = none ∧
    normalize_text (normalize_text (some [0x3000]))
      ≠ normalize_text (some [0x3000]) := by
  refine ⟨by decide, by decide, by decide⟩

/-- Claim C9, amended: normalization is total, absent or empty input
yields the absent result, and `normalize(normalize(x)) = normalize(x)`
for every input whose normalized form is not the empty string; a
non-empty input whose characters all vanish under the character map and
strip normalizes to the empty string, and only then does a second
application differ (yielding absent). -/
theorem normalize_amended (x : Option Text) :
    (x = none ∨ x = some [] → normalize_text x = none) ∧
    (normalize_text x ≠ some [] →
      normalize_text (normalize_text x) = normalize_text x) := by
  constructor
  · rintro (rfl | rfl) <;> rfl
  · intro hne
    match x with
    | none => rfl
    | some s =>
      by_cases hs : s = []
      · subst hs
        rfl
      · have h1 : normalize_text (some s) = some (normalizeCodes s) := by
          unfold normalize_text
          simp [hs]
        have h2 : normalizeCodes s ≠ [] := by
          intro hc
          exact hne (by rw [h1, hc])
        exact normalize_text_idem_of_ne_empty s hs h2

/-- Claim C9 witness: idempotence on a concrete non-collapsing
string. -/
theorem normalize_amended_witness :
    normalize_text (some (strCodes "Help")) ≠ some [] ∧
    normalize_text (normalize_text (some (strCodes "Help")))
      = normalize_text (some (strCodes "Help")) :=
  ⟨by decide, (normalize_amended (some (strCodes "Help"))).2 (by decide)⟩

/-- Claim C5, counterexample: with 50 posts of which the first yields
no result, a checkpoint is written after post index 49 while only 49
results are completed, so the sequence of completed-result counts at
write times ([49]) is not the sequence of multiples of 50 reached by
the run ([]). -/
theorem checkpoint_cadence_counterexample :
    ¬(((process_posts_run (fun i => if i = 0 then none else some i)
          50).2).map List.length
      = (List.range ((process_posts_run
            (fun i => if i = 0 then none else some i) 50).1.length / 50)).map
          (fun k => 50 * (k + 1))) := by
  decide

/-- Claim C5, amended: the checkpoint is written exactly after
processing a post at 0-based index `i` with `(i + 1) % 50 = 0` that
yielded a result — the cadence follows the post position in the
iteration, not the count of completed results — and each snapshot holds
the results accumulated through that post. -/
theorem checkpoint_cadence_amended {R : Type} (outcome : Nat → Option R)
    (total : Nat) :
    (process_posts_run outcome total).2
      = ((List.range total).filter
          (fun i => decide ((i + 1) % 50 = 0) && (outcome i).isSome)).map
          (fun i => (List.range (i + 1)).filterMap outcome) := by
  rw [process_posts_run, List.range_eq_range', processFrom_snd]
  simp [List.range_eq_range']

/-- Claim C1, counterexample: with 52 posts of which the first yields
no result, interrupting after 51 posts leaves a checkpoint of 49
results (written after post index 49), so the resumed run restarts at
index 49, reprocesses post 49, and produces an output table with a
duplicated row that differs from the uninterrupted run. -/
theorem resume_not_exactly_once :
    resumed_output (fun i => if i = 0 then none else some i) 52 51
      ≠ (process_posts_run (fun i => if i = 0 then none else some i)
          52).1 := by
  decide

/-- Claim C1, amended: if every post processed before the interruption
yields a result, the resumed run produces an output table identical to
the uninterrupted run; the resume restarts from the last checkpoint
(the largest multiple of 50 not exceeding K), deterministically
re-running the posts after it, and when some post yields no result the
checkpointed length under-counts the processed posts and the output
gains duplicate rows. -/
theorem resume_equiv_of_all_some {R : Type} (outcome : Nat → Option R)
    (total K : Nat) (hK : K ≤ total)
    (hsome : ∀ i, i < K → (outcome i).isSome) :
    resumed_output outcome total K = (process_posts_run outcome total).1 := by
  have hfull : (process_posts_run outcome total).1
      = (List.range' 0 total).filterMap outcome := by
    rw [process_posts_run, processFrom_fst, List.nil_append,
      List.range_eq_range']
  have hw : (processFrom outcome (List.range K) ([] : List R)).2
      = ((List.range' 0 K).filter
          (fun i => decide ((i + 1) % 50 = 0) && (outcome i).isSome)).map
          (fun i => ([] : List R)
            ++ (List.range' 0 (i + 1 - 0)).filterMap outcome) := by
    rw [List.range_eq_range', processFrom_snd]
  have hck : checkpoint_after outcome K
      = ((((List.range' 0 K).filter
            (fun i => decide ((i + 1) % 50 = 0)
              && (outcome i).isSome)).getLast?).map
          (fun i => ([] : List R)
            ++ (List.range' 0 (i + 1 - 0)).filterMap outcome)).getD [] := by
    rw [checkpoint_after, hw, List.getLast?_map]
  cases hlast : ((List.range' 0 K).filter
      (fun i => decide ((i + 1) % 50 = 0) && (outcome i).isSome)).getLast? with
  | none =>
    have hck0 : checkpoint_after outcome K = [] := by
      rw [hck, hlast]
      rfl
    simp only [resumed_output]
    rw [hck0]
    simp only [List.length_nil, Nat.sub_zero]
    rw [processFrom_fst, List.nil_append, hfull]
  | some i0 =>
    have hmem0 : i0 ∈ (List.range' 0 K).filter
        (fun i => decide ((i + 1) % 50 = 0) && (outcome i).isSome) := by
      obtain ⟨hne, heq⟩ :=
        List.mem_getLast?_eq_getLast (Option.mem_def.mpr hlast)
      rw [heq]
      exact List.getLast_mem hne
    have hfilt := List.mem_filter.mp hmem0
    have hrange := List.mem_range'_1.mp hfilt.1
    have hi0K : i0 < K := by omega
    have hck1 : checkpoint_after outcome K
        = (List.range' 0 (i0 + 1)).filterMap outcome := by
      rw [hck, hlast]
      simp
    have hlen : (checkpoint_after outcome K).length = i0 + 1 := by
      rw [hck1, length_filterMap_of_isSome]
      · exact List.length_range' 0 1 (i0 + 1)
      · intro i hi
        have hm := List.mem_range'_1.mp hi
        exact hsome i (by omega)
    simp only [resumed_output]
    rw [hlen, hck1, processFrom_fst, hfull, ← List.filterMap_append]
    have hr := List.range'_append_1 0 (i0 + 1) (total - (i0 + 1))
    have e1 : 0 + (i0 + 1) = i0 + 1 := by omega
    have e2 : total - (i0 + 1) + (i0 + 1) = total := by omega
    rw [e1, e2] at hr
    rw [hr]

/-- Claim C1 witness: the amended resume equivalence on a concrete
all-yielding run of 3 posts interrupted after 2. -/
theorem resume_equiv_witness :
    resumed_output (fun i => some i) 3 2
      = (process_posts_run (fun i => some i) 3).1 :=
  resume_equiv_of_all_some (fun i => some i) 3 2 (by omega)
    (fun i _ => rfl)
